import Mathlib

/-!
Verification of the ScriptHub environment-provisioning and execution
pipeline (src/scripts/newMain.py).

The Python source is shallowly embedded: file contents and other Python
strings are modelled as `List Char` (so that every operation is a
structurally recursive, kernel-computable function), subprocess and
thread interactions are modelled by explicit inputs (output lines read,
return codes, the point at which a stop flag is observed) and explicit
state records, and Qt signal emissions are modelled as returned event
lists.  Package versions are modelled as PEP 440 release segments
(lists of naturals); pre-release/local segments and wildcard specifiers
are outside the fragment the program's data exercises.
-/

/-- Python strings are modelled as lists of characters, so that all the
string processing of the source is computable by the kernel. -/
abbrev Str := List Char

/-- Coerce a Lean string literal to the character-list model. -/
def strOf (s : String) : Str := s.data

/-- Model of Python `str.strip()`: drop whitespace from both ends. -/
def pyStrip (s : Str) : Str :=
  ((s.dropWhile Char.isWhitespace).reverse.dropWhile Char.isWhitespace).reverse

/-- Model of Python `str.split(sep)` for a single-character separator. -/
def splitOnChar (sep : Char) : Str → List Str
  | [] => [[]]
  | c :: rest =>
    match splitOnChar sep rest with
    | [] => if c = sep then [[], []] else [[c]]
    | h :: t => if c = sep then [] :: h :: t else (c :: h) :: t

/-- Prefix of `s` before the first occurrence of the substring `sep`
(the whole of `s` when `sep` does not occur): Python `s.split(sep)[0]`. -/
def takeUntilSub (sep : Str) : Str → Str
  | [] => []
  | c :: rest => if sep.isPrefixOf (c :: rest) then [] else c :: takeUntilSub sep rest

/-- Model of Python `str.split()` with no argument: split on whitespace
runs, dropping empty pieces. -/
def splitWs (s : Str) : List Str :=
  (splitOnChar ' ' (s.map (fun c => if c.isWhitespace then ' ' else c))).filter (fun p => !p.isEmpty)

/-- ASCII lower-casing of one character, as Python `str.lower()` acts on
the ASCII package names the program handles. -/
def lowerChar (c : Char) : Char :=
  if 65 ≤ c.toNat ∧ c.toNat ≤ 90 then Char.ofNat (c.toNat + 32) else c

/-- Model of Python `str.lower()`. -/
def lowerStr (s : Str) : Str := s.map lowerChar

/-- Lexicographic (code-point) comparison on strings, the order Python
`sorted` uses on `str`. -/
def strLe : Str → Str → Bool
  | [], _ => true
  | _ :: _, [] => false
  | a :: as, b :: bs => if a = b then strLe as bs else decide (a < b)

/-- The ordering relation behind `strLe`, in `Prop` form for the sorting
lemmas. -/
def StrLe (a b : Str) : Prop := strLe a b = true

instance : DecidableRel StrLe := fun _ _ => inferInstanceAs (Decidable (_ = true))

/-- Model of Python `sorted` on a list of strings. -/
def sortStrs (l : List Str) : List Str := l.insertionSort StrLe

/-- A PEP 440 version, restricted to its release segments: `2.31.0` is
`[2, 31, 0]`.  This is the fragment of version syntax the program's
manifests and installed-package metadata exercise. -/
abbrev PyVersion := List Nat

/-- Comparison operators a specifier may carry
(`packaging.specifiers.Specifier` operators on release-only versions). -/
inductive SpecOp
  | eq | ne | le | ge | lt | gt | compat | arbitrary
deriving DecidableEq, Repr

/-- Is every component zero?  Used for zero-padded release comparison. -/
def allZero (l : List Nat) : Bool := l.all (fun n => n = 0)

/-- PEP 440 release comparison: compare componentwise, padding the
shorter release with zeros. -/
def vCmp : PyVersion → PyVersion → Ordering
  | [], bs => if allZero bs then .eq else .lt
  | as, [] => if allZero as then .eq else .gt
  | a :: as, b :: bs =>
    if a < b then .lt else if b < a then .gt else vCmp as bs

/-- Take `n` components of a release, zero-padding past its end. -/
def padTake (n : Nat) (v : PyVersion) : PyVersion :=
  match n, v with
  | 0, _ => []
  | n + 1, [] => 0 :: padTake n []
  | n + 1, a :: as => a :: padTake n as

/-- Does the installed version `v` satisfy one specifier clause
`op spec`?  Models `packaging.specifiers.Specifier.contains` on
release-only versions. -/
def opHolds (op : SpecOp) (v : PyVersion) (spec : PyVersion) : Bool :=
  match op with
  | .eq => vCmp v spec = .eq
  | .ne => vCmp v spec ≠ .eq
  | .le => vCmp v spec ≠ .gt
  | .ge => vCmp v spec ≠ .lt
  | .lt => vCmp v spec = .lt
  | .gt => vCmp v spec = .gt
  | .compat => vCmp v spec ≠ .lt && padTake (spec.length - 1) v = spec.dropLast
  | .arbitrary => v = spec

/-- A specifier set satisfies a version iff every clause does
(`SpecifierSet.contains` is the conjunction of its specifiers). -/
def specSetContains (specs : List (SpecOp × PyVersion)) (v : PyVersion) : Bool :=
  specs.all (fun s => opHolds s.1 v s.2)

/-- A parsed requirement: package name plus version-constraint clauses.
Models `packaging.requirements.Requirement` for the plain
name-plus-specifiers lines the program's manifests contain. -/
structure Req where
  name : Str
  specs : List (SpecOp × PyVersion)
deriving DecidableEq, Repr

/-- Characters allowed inside a requirement name
(`[A-Za-z0-9._-]`, per the PEP 508 name grammar). -/
def isNameChar (c : Char) : Bool := c.isAlphanum || c = '.' || c = '_' || c = '-'

/-- Parse one dotted-numeric version (`2.31.0`); fails on anything else,
as `packaging` raises `InvalidVersion` outside this fragment's subset. -/
def parseVersion (s : Str) : Option PyVersion :=
  let comps := splitOnChar '.' s
  if comps.all (fun c => !c.isEmpty && c.all Char.isDigit) then
    some (comps.map (fun c => c.foldl (fun n d => n * 10 + (d.toNat - 48)) 0))
  else none

/-- The specifier operators in the textual order `packaging` tries them
(longest first, so `==` is preferred over a bare prefix). -/
def opTable : List (Str × SpecOp) :=
  [(strOf "===", .arbitrary), (strOf "==", .eq), (strOf "!=", .ne),
   (strOf "<=", .le), (strOf ">=", .ge), (strOf "~=", .compat),
   (strOf "<", .lt), (strOf ">", .gt)]

/-- Parse one specifier clause such as `>=2` or `<3`. -/
def parseSpec (s : Str) : Option (SpecOp × PyVersion) :=
  let s := pyStrip s
  match opTable.find? (fun e => e.1.isPrefixOf s) with
  | none => none
  | some (tok, op) =>
    match parseVersion (pyStrip (s.drop tok.length)) with
    | none => none
    | some v => some (op, v)

/-- Sequence a list of options, failing if any element fails. -/
def seqOpts {α : Type} : List (Option α) → Option (List α)
  | [] => some []
  | o :: os =>
    match o, seqOpts os with
    | some a, some as => some (a :: as)
    | _, _ => none

/-- Model of `Requirement(req_str)`: parse a name followed by an
optional comma-separated specifier list; `none` models the
`InvalidRequirement` exception caught by `check_dependencies`. -/
def parseRequirement (s : Str) : Option Req :=
  let s := pyStrip s
  let name := s.takeWhile isNameChar
  if name.isEmpty then none
  else if !(name.headD ' ').isAlphanum || !(name.getLastD ' ').isAlphanum then none
  else
    let rest := pyStrip (s.drop name.length)
    if rest.isEmpty then some ⟨name, []⟩
    else
      match seqOpts ((splitOnChar ',' rest).map parseSpec) with
      | none => none
      | some specs => some ⟨name, specs⟩

/-- Decimal rendering of a natural number. -/
def natToStr (n : Nat) : Str := Nat.toDigits 10 n

/-- Join string pieces with a separator character. -/
def joinSep (sep : Char) : List Str → Str
  | [] => []
  | [p] => p
  | p :: ps => p ++ sep :: joinSep sep ps

/-- Render a version as dotted components (`str(Version)` on the
release-only fragment). -/
def versionToStr (v : PyVersion) : Str := joinSep '.' (v.map natToStr)

/-- Render one specifier clause, operator then version with no space
(`Specifier.__str__`). -/
def specToStr (s : SpecOp × PyVersion) : Str :=
  (match s.1 with
   | .eq => strOf "==" | .ne => strOf "!=" | .le => strOf "<="
   | .ge => strOf ">=" | .lt => strOf "<" | .gt => strOf ">"
   | .compat => strOf "~=" | .arbitrary => strOf "===") ++ versionToStr s.2

/-- Render a specifier set: the clause strings sorted and joined with
commas (`SpecifierSet.__str__` sorts the clause strings). -/
def specSetToStr (specs : List (SpecOp × PyVersion)) : Str :=
  joinSep ',' (sortStrs (specs.map specToStr))

/-- Render a requirement: name immediately followed by its specifier
set (`Requirement.__str__` for plain name-and-specifier requirements). -/
def strReq (r : Req) : Str := r.name ++ specSetToStr r.specs

/-- One installed distribution as `importlib.metadata.distributions()`
reports it: a (possibly mixed-case) name and an installed version. -/
structure PkgDist where
  name : Str
  version : PyVersion
deriving DecidableEq, Repr

/-- The Package Index snapshot: association list from lower-cased
package name to installed version (the dict built by
`get_installed_packages`). -/
abbrev PkgIndex := List (Str × PyVersion)

/-- Dict insertion: overwrite the value of an existing key in place,
append a fresh key (Python dict-comprehension semantics, later entries
winning). -/
def idxInsert (idx : PkgIndex) (k : Str) (v : PyVersion) : PkgIndex :=
  match idx with
  | [] => [(k, v)]
  | e :: es => if e.1 = k then (k, v) :: es else e :: idxInsert es k v

/-- Dict lookup. -/
def idxLookup (idx : PkgIndex) (k : Str) : Option PyVersion :=
  (idx.find? (fun e => e.1 = k)).map (fun e => e.2)

/-- Build the installed-packages snapshot from the live distribution
metadata: `{dist.metadata["Name"].lower(): dist.version for dist in
distributions()}` (`get_installed_packages`, lines 605-611). -/
def buildIndex (dists : List PkgDist) : PkgIndex :=
  dists.foldl (fun idx d => idxInsert idx (lowerStr d.name) d.version) []

/-- Model of `DependencyManagement.get_installed_packages`: rebuild the
snapshot from the live metadata when the cache is empty, otherwise
return the cache; returns the snapshot and the updated cache field. -/
def get_installed_packages (cache : Option PkgIndex) (live : List PkgDist) :
    PkgIndex × Option PkgIndex :=
  match cache with
  | none => (buildIndex live, some (buildIndex live))
  | some idx => (idx, some idx)

/-- Model of `DependencyManagement.clear_packages_cache`. -/
def clear_packages_cache (_cache : Option PkgIndex) : Option PkgIndex := none

/-- Model of `DependencyManagement._on_install_finished` (lines
596-603): clears the package cache and emits
`dependencies_installed_signal` with the install's success flag. -/
def on_install_finished (cache : Option PkgIndex) (success : Bool) :
    Option PkgIndex × Bool :=
  (clear_packages_cache cache, success)

/-- The per-line guard of the manifest-line filter: keep a stripped
line when it is non-empty and does not start with `#`. -/
def keepLine (l : Str) : Bool := !l.isEmpty && !((strOf "#").isPrefixOf l)

/-- The manifest-line filter of `check_dependencies` (lines 510-512):
strip each line, keep the non-empty ones not starting with `#`. -/
def filterReqLines (lines : List Str) : List Str :=
  (lines.map pyStrip).filter keepLine

/-- The unmet-requirement entry for one parsed requirement (lines
517-522): `str(req)` when the lower-cased name is absent from the
snapshot, the required-vs-installed message when the installed version
violates a non-empty specifier set, `none` when the requirement is
met. -/
def reqUnmetEntry (idx : PkgIndex) (r : Req) : Option Str :=
  match idxLookup idx (lowerStr r.name) with
  | none => some (strReq r)
  | some v =>
    if !r.specs.isEmpty && !specSetContains r.specs v then
      some (lowerStr r.name ++ strOf " (требуется " ++ specSetToStr r.specs ++
            strOf ", установлено " ++ versionToStr v ++ strOf ")")
    else none

/-- The diagnostic logged for a manifest line `Requirement` refuses to
parse (line 524). -/
def parseErrMsg (l : Str) : Str :=
  strOf "⚠️ Ошибка разбора строки '" ++ l ++ strOf "'"

/-- The per-line body of the `for req_str in requirements` loop (lines
514-525), accumulating the unmet entries and the parse diagnostics in
emission order. -/
def checkLoop (idx : PkgIndex) : List Str → List Str × List Str
  | [] => ([], [])
  | l :: ls =>
    let rest := checkLoop idx ls
    match parseRequirement l with
    | none => (rest.1, parseErrMsg l :: rest.2)
    | some r =>
      match reqUnmetEntry idx r with
      | none => rest
      | some m => (m :: rest.1, rest.2)

/-- Result of one `check_dependencies` call: the returned boolean, the
`missing` list it displays, and the parse diagnostics it logged. -/
structure DepCheck where
  ok : Bool
  missing : List Str
  parseErrors : List Str
deriving DecidableEq, Repr

/-- Model of `DependencyManagement.check_dependencies` (lines 499-535)
against an already-fetched snapshot.  `manifest = none` models an
absent `requirements.txt` (return `True` at line 503); otherwise the
raw file lines are filtered, each surviving line parsed and tested, and
the call returns `True` iff the missing list stayed empty. -/
def check_dependencies (manifest : Option (List Str)) (idx : PkgIndex) : DepCheck :=
  match manifest with
  | none => ⟨true, [], []⟩
  | some rawLines =>
    let r := checkLoop idx (filterReqLines rawLines)
    ⟨r.1.isEmpty, r.1, r.2⟩

/-- Model of `check_dependencies` with the cache threading of
`get_installed_packages` made explicit: the snapshot is fetched (and
the cache possibly rebuilt) only when a manifest is present, exactly as
the early return at line 503 skips the fetch. -/
def check_dependencies_cached (manifest : Option (List Str))
    (cache : Option PkgIndex) (live : List PkgDist) : DepCheck × Option PkgIndex :=
  match manifest with
  | none => (⟨true, [], []⟩, cache)
  | some rawLines =>
    let f := get_installed_packages cache live
    (check_dependencies (some rawLines) f.1, f.2)

/-- The two package environments the program actually touches: the app
interpreter's own environment — the one `importlib.metadata.distributions()`
enumerates inside `get_installed_packages` (line 609) — and the
script's venv, the environment `pip install` writes into (the install
subprocess runs under the venv's `python_exec`, line 298). -/
structure PkgWorld where
  appDists : List PkgDist
  venvDists : List PkgDist
deriving DecidableEq, Repr

/-- Model of a successful `pip install -r requirements.txt` run by
`InstallThread` (lines 297-303): the manifest's packages land in the
venv interpreter's environment; the app interpreter's environment is
untouched. -/
def pipInstallVenv (w : PkgWorld) (newPkgs : List PkgDist) : PkgWorld :=
  { appDists := w.appDists, venvDists := w.venvDists ++ newPkgs }

/-- Spec-side satisfaction predicate, following the spec's words: the
specifier's name is present in the Package Index and the installed
version satisfies the specifier's version constraint. -/
def ReqSatisfied (idx : PkgIndex) (r : Req) : Prop :=
  ∃ v, idxLookup idx (lowerStr r.name) = some v ∧ specSetContains r.specs v = true

instance (idx : PkgIndex) (r : Req) : Decidable (ReqSatisfied idx r) := by
  unfold ReqSatisfied
  exact match idxLookup idx (lowerStr r.name) with
  | none => isFalse (by simp)
  | some v =>
    if h : specSetContains r.specs v = true then isTrue ⟨v, rfl, h⟩
    else isFalse (by simp [h])

/-- The missing-list entry the code produces for an unmet requirement:
the printed requirement itself when the package is absent, the
required-vs-installed message when it is installed at a violating
version. -/
def missingEntryFor (idx : PkgIndex) (r : Req) : Str :=
  match idxLookup idx (lowerStr r.name) with
  | none => strReq r
  | some v =>
    lowerStr r.name ++ strOf " (требуется " ++ specSetToStr r.specs ++
      strOf ", установлено " ++ versionToStr v ++ strOf ")"

/-- The unmet-entry contribution of one already-stripped manifest line:
`none` when the line fails to parse or its requirement is met. -/
def unmetOf (idx : PkgIndex) (l : Str) : Option Str :=
  (parseRequirement l).bind (reqUnmetEntry idx)

/-- The parse-diagnostic contribution of one already-stripped manifest
line. -/
def errOf (l : Str) : Option Str :=
  match parseRequirement l with
  | none => some (parseErrMsg l)
  | some _ => none

/-- Two installed distributions that differ at most in the letter case
of their names. -/
def distCaseEq (a b : PkgDist) : Prop :=
  lowerStr a.name = lowerStr b.name ∧ a.version = b.version

instance (a b : PkgDist) : Decidable (distCaseEq a b) :=
  inferInstanceAs (Decidable (_ ∧ _))

/-- Two parse results that differ at most in the letter case of the
requirement name. -/
def ReqParseCaseEq : Option Req → Option Req → Prop
  | none, none => True
  | some r, some r' => lowerStr r.name = lowerStr r'.name ∧ r.specs = r'.specs
  | _, _ => False

instance : (o o' : Option Req) → Decidable (ReqParseCaseEq o o')
  | none, none => isTrue trivial
  | some _, some _ => inferInstanceAs (Decidable (_ ∧ _))
  | none, some _ => isFalse fun h => h
  | some _, none => isFalse fun h => h

/-- Two manifest lines that differ at most in the letter case of the
package name: same stripped-line filtering fate, and parse results
related by `ReqParseCaseEq`. -/
def lineCaseEq (l l' : Str) : Prop :=
  keepLine (pyStrip l) = keepLine (pyStrip l') ∧
  ReqParseCaseEq (parseRequirement (pyStrip l)) (parseRequirement (pyStrip l'))

instance (l l' : Str) : Decidable (lineCaseEq l l') :=
  inferInstanceAs (Decidable (_ ∧ _))

/-- Provisioner state for one script's environment: does the venv's
interpreter already exist on disk (`os.path.exists(python_exec)`), and
is a `VenvCreationThread` currently running (`self._venv_thread and
self._venv_thread.isRunning()`). -/
structure VenvState where
  venvExists : Bool
  threadRunning : Bool
deriving DecidableEq, Repr

/-- Result of one `create_or_get_venv` call: the returned interpreter
path (or `None`), the provisioner state after the call, and whether the
call started a background creation thread. -/
structure VenvCallResult where
  ret : Option String
  state : VenvState
  startedCreation : Bool
deriving DecidableEq, Repr

/-- Model of `DependencyManagement.create_or_get_venv` (lines 546-570):
return the interpreter path synchronously when it exists; otherwise
return `None`, starting a creation thread only when none is running. -/
def create_or_get_venv (st : VenvState) (python_exec : String) : VenvCallResult :=
  if st.venvExists then ⟨some python_exec, st, false⟩
  else if st.threadRunning then ⟨none, st, false⟩
  else ⟨none, ⟨false, true⟩, true⟩

/-- What can happen to the provisioner state between two
`create_or_get_venv` calls, short of external deletion of the
environment and short of a creation failure (after a failure the spec
requires an explicit retry, outside this idempotence property):
nothing, or the in-flight creation completes successfully, putting the
interpreter on disk. -/
inductive VenvEvent
  | tick
  | completeSuccess
deriving DecidableEq, Repr

/-- Effect of one `VenvEvent` on the provisioner state. -/
def venvStep (st : VenvState) : VenvEvent → VenvState
  | .tick => st
  | .completeSuccess => if st.threadRunning then ⟨true, false⟩ else st

/-- A provisioner state that already owns its environment or has a
creation in flight. -/
def VenvActive (st : VenvState) : Prop :=
  st.venvExists = true ∨ st.threadRunning = true

instance (st : VenvState) : Decidable (VenvActive st) :=
  inferInstanceAs (Decidable (_ ∨ _))

/-- The three ways `MainWindow._on_dependencies_installed` (lines
1544-1561) can proceed after an install-finished signal. -/
inductive InstallFollowup
  | rerunPrepare (script_name : String)
  | staleDebugLog (script_name : String)
  | failureLog (script_name : String)
deriving DecidableEq, Repr

/-- Model of `ScriptOperations.get_script_dir` (lines 410-411):
`os.path.join("scripts", script_name)`, with the path separator
written `/` (under `os.sep = '\'` the string is likewise strictly
longer than the bare name, which is all the proofs use). -/
def get_script_dir (script_name : String) : String := "scripts/" ++ script_name

/-- Model of the dispatch in `MainWindow._on_dependencies_installed`
(lines 1544-1561): on success, when `current_script` equals the value
delivered by the signal, re-invoke `_prepare_and_run_script`; on
success otherwise, log the stale completion; on failure, log the
failure.  The second argument is the first payload of
`dependencies_installed_signal`; although the handler's parameter is
named `script_name`, the value actually emitted at lines 580 and 603
is the script DIRECTORY that `install_dependencies` was called with
(`get_script_dir` of the name, via lines 1372/1585 and 1541/1573). -/
def on_dependencies_installed (current_script : Option String) (signal_arg : String)
    (success : Bool) : InstallFollowup :=
  if success then
    if current_script = some signal_arg then .rerunPrepare signal_arg
    else .staleDebugLog signal_arg
  else .failureLog signal_arg

/-- Where `MainWindow._prepare_and_run_script` (lines 1583-1605) hands
control next. -/
inductive PrepareOutcome
  | abortNoScript
  | checkDeps (python_exec : String)
  | awaitVenv
deriving DecidableEq, Repr

/-- Model of `MainWindow._prepare_and_run_script`: abort when the
script file is missing; otherwise ask `create_or_get_venv` and either
proceed to `_check_and_install_dependencies_then_run` (the
dependency-check stage) with the returned interpreter, or wait for the
venv-created signal. -/
def prepare_and_run_script (script_path : Option String) (venv : VenvState)
    (python_exec : String) : PrepareOutcome × VenvState × Bool :=
  match script_path with
  | none => (.abortNoScript, venv, false)
  | some _ =>
    match create_or_get_venv venv python_exec with
    | ⟨some p, st, started⟩ => (.checkDeps p, st, started)
    | ⟨none, st, started⟩ => (.awaitVenv, st, started)

/-- The running session owned by a live `WorkerThread`. -/
structure RunningSession where
  script_name : String
deriving DecidableEq, Repr

/-- Executor state: `some` iff `self.worker_thread` is set and
`isRunning()`. -/
structure ExecutorState where
  running : Option RunningSession
deriving DecidableEq, Repr

/-- Result of one `run_script` call: the executor state after the call,
the output events emitted, and whether a new worker was launched. -/
structure RunScriptResult where
  state : ExecutorState
  events : List Str
  launched : Bool
deriving DecidableEq, Repr

/-- The busy notice `run_script` emits when a worker is already live
(line 745). -/
def busyMsg : Str := strOf "⚠️ Скрипт уже запущен, остановите его перед запуском нового."

/-- The start notice `run_script` emits when it launches (line 748). -/
def startMsg (script_name : String) : Str :=
  strOf "▶ Запускаю скрипт: " ++ script_name.data

/-- Model of `ScriptExecutor.run_script` (lines 743-754): reject with a
busy notice while a worker thread is live, otherwise launch a new
worker for the requested script. -/
def run_script (st : ExecutorState) (script_name : String) : RunScriptResult :=
  match st.running with
  | some _ => ⟨st, [busyMsg], false⟩
  | none => ⟨⟨some ⟨script_name⟩⟩, [startMsg script_name], true⟩

/-- The events a `WorkerThread` emits: `output_signal` lines,
`error_signal` diagnostics, and the `finished_signal`. -/
inductive WEvent
  | out (s : Str)
  | err (s : Str)
  | finished
deriving DecidableEq, Repr

/-- The missing-script diagnostic of `WorkerThread.run` (line 785). -/
def missingFileMsg (script_path : String) : Str :=
  strOf "Ошибка: файл скрипта не найден: " ++ script_path.data

/-- The internal-error diagnostic of `WorkerThread.run` (line 810). -/
def excMsg (m : Str) : Str := strOf "❌ Критическая ошибка выполнения: " ++ m

/-- The output events of the read loop (lines 797-800): each non-empty
line read from the child's stdout is emitted stripped. -/
def emitOuts (reads : List Str) : List WEvent :=
  reads.filterMap (fun s => if s.isEmpty then none else some (.out (pyStrip s)))

/-- The trailing stderr diagnostic (lines 805-807): emitted only when
`communicate()` returned non-empty stderr text. -/
def stderrEvents (stderr : Str) : List WEvent :=
  if stderr.isEmpty then [] else [.err (pyStrip stderr)]

/-- The `try` body of `WorkerThread.run` (lines 782-810), as the events
it emits.  Inputs model the interactions: `fileExists` is the
`os.path.exists` test, `reads` the stdout lines delivered while the
child lives, `stopAt = some k` that the stop flag was observed false
from loop-iteration `k` on, `stderr` the text `communicate()` returns,
and `exc = some (j, m)` an exception with text `m` raised after `j`
loop iterations. -/
def workerBody (script_path : String) (fileExists : Bool) (reads : List Str)
    (stopAt : Option Nat) (stderr : Str) (exc : Option (Nat × Str)) : List WEvent :=
  if !fileExists then [.err (missingFileMsg script_path)]
  else
    match exc with
    | some (j, m) => emitOuts (reads.take j) ++ [.err (excMsg m)]
    | none =>
      match stopAt with
      | some k =>
        if k ≤ reads.length then emitOuts (reads.take k)
        else emitOuts reads ++ stderrEvents stderr
      | none => emitOuts reads ++ stderrEvents stderr

/-- Model of `WorkerThread.run`: the `try` body followed by the
`finally` clause's single `finished_signal` emission (line 812). -/
def workerRun (script_path : String) (fileExists : Bool) (reads : List Str)
    (stopAt : Option Nat) (stderr : Str) (exc : Option (Nat × Str)) : List WEvent :=
  workerBody script_path fileExists reads stopAt stderr exc ++ [WEvent.finished]

/-- Whether the install loop observes the stop flag false at iteration
`i` (the `if not self._is_running` check at line 307). -/
def stopNow (stopAt : Option Nat) (i : Nat) : Bool :=
  match stopAt with
  | some k => decide (k ≤ i)
  | none => false

/-- The pip-install streaming loop of `InstallThread.run` (lines
305-326), as the progress percentages it emits plus the final success
flag: each stdout line bumps progress by 3 capped at 95; an observed
stop aborts with failure; after the stream, exit code 0 emits exactly
100 and success, a non-zero exit emits nothing more and failure. -/
def installLoop (progress : Nat) (i : Nat) (lines : List Str) (stopAt : Option Nat)
    (rc : Int) : List Nat × Bool :=
  match lines with
  | [] => if rc = 0 then ([100], true) else ([], false)
  | _ :: ls =>
    if stopNow stopAt i then ([], false)
    else
      ((min (progress + 3) 95) :: (installLoop (min (progress + 3) 95) (i + 1) ls stopAt rc).1,
       (installLoop (min (progress + 3) 95) (i + 1) ls stopAt rc).2)

/-- Model of `InstallThread.run`'s progress reporting, started from the
initial `progress = 0` at line 305. -/
def installRun (lines : List Str) (stopAt : Option Nat) (rc : Int) : List Nat × Bool :=
  installLoop 0 0 lines stopAt rc

/-- The fixed standard-library allowlist of
`DependencyManagement._get_stdlib_list` (lines 428-465), transcribed
entry for entry (the Python set literal contains duplicates; list
membership gives the same set semantics). -/
def stdlibList : List Str :=
  [strOf "os", strOf "sys", strOf "json", strOf "time", strOf "datetime",
   strOf "re", strOf "math", strOf "random", strOf "subprocess",
   strOf "shutil", strOf "ctypes", strOf "wintypes", strOf "collections",
   strOf "logging", strOf "threading", strOf "multiprocessing",
   strOf "queue", strOf "urllib", strOf "ssl", strOf "socket",
   strOf "hashlib", strOf "itertools", strOf "functools", strOf "operator",
   strOf "pathlib", strOf "tempfile", strOf "pickle", strOf "copy",
   strOf "weakref", strOf "enum", strOf "numbers", strOf "statistics",
   strOf "typing", strOf "struct", strOf "binascii", strOf "heapq",
   strOf "bisect", strOf "array", strOf "sched", strOf "locale",
   strOf "unicodedata", strOf "string", strOf "textwrap", strOf "difflib",
   strOf "csv", strOf "configparser", strOf "glob", strOf "fnmatch",
   strOf "linecache", strOf "shlex", strOf "zipfile", strOf "tarfile",
   strOf "zlib", strOf "gzip", strOf "bz2", strOf "lzma",
   strOf "zipimport", strOf "importlib", strOf "pkgutil",
   strOf "modulefinder", strOf "runpy", strOf "traceback", strOf "inspect",
   strOf "ast", strOf "symtable", strOf "tokenize", strOf "keyword",
   strOf "token", strOf "opcode", strOf "dis", strOf "pickletools",
   strOf "code", strOf "codeop", strOf "pprint", strOf "reprlib",
   strOf "weakref", strOf "abc", strOf "collections", strOf "contextlib",
   strOf "functools", strOf "itertools", strOf "operator", strOf "types",
   strOf "typing", strOf "copyreg", strOf "marshal", strOf "warnings",
   strOf "errno", strOf "io", strOf "selectors", strOf "threading",
   strOf "multiprocessing", strOf "concurrent", strOf "asyncio",
   strOf "socket", strOf "ssl", strOf "signal", strOf "mmap",
   strOf "fcntl", strOf "pwd", strOf "grp", strOf "posix", strOf "nt",
   strOf "spwd", strOf "crypt", strOf "termios", strOf "tty", strOf "pty",
   strOf "resource", strOf "syslog", strOf "pipes", strOf "select",
   strOf "asyncore", strOf "asynchat", strOf "email", strOf "json",
   strOf "mailbox", strOf "mimetypes", strOf "base64", strOf "binhex",
   strOf "binascii", strOf "quopri", strOf "uu", strOf "html", strOf "xml",
   strOf "webbrowser", strOf "cgi", strOf "cgitb", strOf "wsgiref",
   strOf "urllib", strOf "ftplib", strOf "poplib", strOf "imaplib",
   strOf "nntplib", strOf "smtplib", strOf "smtpd", strOf "telnetlib",
   strOf "uuid", strOf "socketserver", strOf "http", strOf "http.server",
   strOf "http.client", strOf "ftplib", strOf "poplib", strOf "imaplib",
   strOf "nntplib", strOf "smtplib", strOf "smtpd", strOf "telnetlib",
   strOf "xmlrpc", strOf "ipaddress", strOf "audioop", strOf "aifc",
   strOf "sunau", strOf "wave", strOf "chunk", strOf "colorsys",
   strOf "imghdr", strOf "sndhdr", strOf "ossaudiodev", strOf "getopt",
   strOf "argparse", strOf "getpass", strOf "curses", strOf "platform",
   strOf "errno", strOf "ctypes", strOf "threading", strOf "zipimport",
   strOf "pkgutil", strOf "modulefinder", strOf "runpy", strOf "importlib",
   strOf "imp", strOf "parser", strOf "ast", strOf "symtable",
   strOf "symbol", strOf "token", strOf "keyword", strOf "tokenize",
   strOf "tabnanny", strOf "pyclbr", strOf "py_compile",
   strOf "compileall", strOf "dis", strOf "pickletools", strOf "formatter",
   strOf "msilib", strOf "msvcrt", strOf "winreg", strOf "winsound",
   strOf "posix", strOf "pwd", strOf "spwd", strOf "grp", strOf "crypt",
   strOf "termios", strOf "tty", strOf "pty", strOf "fcntl", strOf "pipes",
   strOf "resource", strOf "nis", strOf "syslog", strOf "optparse",
   strOf "imp", strOf "importlib", strOf "ensurepip", strOf "venv",
   strOf "zipapp"]

/-- The line preprocessing of `analyze_imports` (lines 474-475): split
the source on newlines, strip every line, keep the non-empty ones not
starting with `#` — the very comprehension `check_dependencies` uses on
the manifest. -/
def strippedCodeLines (content : Str) : List Str :=
  ((splitOnChar '\n' content).map pyStrip).filter keepLine

/-- The external root-module names one preprocessed line contributes
(lines 477-487): for an `import `-prefixed line, each comma piece is
stripped and cut at the first `.` and at the first ` as `, keeping
non-empty names outside the allowlist; for a `from `-prefixed line of
at least four whitespace-separated parts whose third part is `import`,
the second part cut at the first `.` when outside the allowlist; any
other line contributes nothing. -/
def lineImports (stdlib : List Str) (line : Str) : List Str :=
  if (strOf "import ").isPrefixOf line then
    ((splitOnChar ',' (line.drop 7)).map
      (fun m => takeUntilSub (strOf " as ") (takeUntilSub (strOf ".") (pyStrip m)))).filter
      (fun m => !m.isEmpty && decide (m ∉ stdlib))
  else if (strOf "from ").isPrefixOf line then
    if 4 ≤ (splitWs line).length ∧ (splitWs line).getD 2 [] = strOf "import" then
      if takeUntilSub (strOf ".") ((splitWs line).getD 1 []) ∉ stdlib then
        [takeUntilSub (strOf ".") ((splitWs line).getD 1 [])]
      else []
    else []
  else []

/-- Python set insertion: add the name unless already present. -/
def insertNew (l : List Str) (x : Str) : List Str :=
  if x ∈ l then l else l ++ [x]

/-- The `imports` set accumulated over the preprocessed lines (the
`for line in lines` loop of `analyze_imports`). -/
def collectImports (lines : List Str) (acc : List Str) : List Str :=
  lines.foldl (fun acc line => (lineImports stdlibList line).foldl insertNew acc) acc

/-- Model of `DependencyManagement.analyze_imports` (lines 467-491) on
the script's text: gather the external root-module names of every
(stripped) `import `/`from ` line, and return them sorted, or `none`
when no name remains (`sorted(imports) if imports else None`). -/
def analyze_imports (content : Str) : Option (List Str) :=
  if (collectImports (strippedCodeLines content) []).isEmpty then none
  else some (sortStrs (collectImports (strippedCodeLines content) []))

instance : IsTotal Str StrLe := ⟨by
  intro a
  induction a with
  | nil => intro b; exact Or.inl rfl
  | cons x xs ih =>
    intro b
    cases b with
    | nil => exact Or.inr rfl
    | cons y ys =>
      by_cases hxy : x = y
      · subst hxy
        rcases ih ys with h | h
        · exact Or.inl (by simp only [StrLe, strLe, if_pos rfl]; exact h)
        · exact Or.inr (by simp only [StrLe, strLe, if_pos rfl]; exact h)
      · rcases lt_trichotomy x y with h | h | h
        · exact Or.inl (by
            simp only [StrLe, strLe, if_neg hxy]
            exact decide_eq_true h)
        · exact absurd h hxy
        · exact Or.inr (by
            simp only [StrLe, strLe, if_neg (Ne.symm hxy)]
            exact decide_eq_true h)⟩

instance : IsTrans Str StrLe := ⟨by
  intro a
  induction a with
  | nil => intro b c _ _; rfl
  | cons x xs ih =>
    intro b c hab hbc
    cases b with
    | nil => simp [StrLe, strLe] at hab
    | cons y ys =>
      cases c with
      | nil => simp [StrLe, strLe] at hbc
      | cons z zs =>
        simp only [StrLe, strLe] at hab hbc ⊢
        by_cases hxy : x = y
        · subst hxy
          rw [if_pos rfl] at hab
          by_cases hyz : x = z
          · subst hyz
            rw [if_pos rfl] at hbc ⊢
            exact ih ys zs hab hbc
          · rw [if_neg hyz] at hbc ⊢
            exact hbc
        · rw [if_neg hxy] at hab
          have hxylt : x < y := of_decide_eq_true hab
          by_cases hyz : y = z
          · subst hyz
            rw [if_neg hxy]
            exact decide_eq_true hxylt
          · rw [if_neg hyz] at hbc
            have hyzlt : y < z := of_decide_eq_true hbc
            have hxz : x < z := lt_trans hxylt hyzlt
            rw [if_neg (ne_of_lt hxz)]
            exact decide_eq_true hxz⟩

theorem checkLoop_eq (idx : PkgIndex) (ls : List Str) :
    checkLoop idx ls = (ls.filterMap (unmetOf idx), ls.filterMap errOf) := by
  induction ls with
  | nil => rfl
  | cons l ls ih =>
    simp only [checkLoop, ih, List.filterMap_cons]
    cases hp : parseRequirement l with
    | none => simp [unmetOf, errOf, hp]
    | some r =>
      cases hu : reqUnmetEntry idx r with
      | none => simp [unmetOf, errOf, hp, hu]
      | some m => simp [unmetOf, errOf, hp, hu]

theorem check_ok_eq (lines : List Str) (idx : PkgIndex) :
    (check_dependencies (some lines) idx).ok =
      ((filterReqLines lines).filterMap (unmetOf idx)).isEmpty := by
  simp [check_dependencies, checkLoop_eq]

theorem check_missing_eq (lines : List Str) (idx : PkgIndex) :
    (check_dependencies (some lines) idx).missing =
      (filterReqLines lines).filterMap (unmetOf idx) := by
  simp [check_dependencies, checkLoop_eq]

theorem check_errors_eq (lines : List Str) (idx : PkgIndex) :
    (check_dependencies (some lines) idx).parseErrors =
      (filterReqLines lines).filterMap errOf := by
  simp [check_dependencies, checkLoop_eq]

theorem specSetContains_nil (v : PyVersion) : specSetContains [] v = true := rfl

theorem reqUnmetEntry_eq_none_iff (idx : PkgIndex) (r : Req) :
    reqUnmetEntry idx r = none ↔ ReqSatisfied idx r := by
  unfold reqUnmetEntry ReqSatisfied
  cases hl : idxLookup idx (lowerStr r.name) with
  | none => simp
  | some v =>
    by_cases hc : specSetContains r.specs v = true
    · simp [hc]
    · have hc' : specSetContains r.specs v = false := Bool.eq_false_iff.mpr hc
      have hs : r.specs ≠ [] := by
        intro h
        rw [h, specSetContains_nil] at hc'
        cases hc'
      have hne : r.specs.isEmpty = false := by
        cases hsp : r.specs with
        | nil => exact absurd hsp hs
        | cons a as => rfl
      simp [hne, hc']

theorem reqUnmetEntry_some_eq (idx : PkgIndex) (r : Req) (e : Str)
    (h : reqUnmetEntry idx r = some e) : e = missingEntryFor idx r := by
  unfold reqUnmetEntry at h
  unfold missingEntryFor
  cases hl : idxLookup idx (lowerStr r.name) with
  | none => rw [hl] at h; exact (Option.some_inj.mp h).symm
  | some v =>
    rw [hl] at h
    simp only [Option.ite_none_right_eq_some, Option.some_inj] at h
    rw [← h.2]

theorem filterReqLines_append (a b : List Str) :
    filterReqLines (a ++ b) = filterReqLines a ++ filterReqLines b := by
  simp [filterReqLines, List.filter_append]

theorem filterReqLines_cons (l : Str) (ls : List Str) :
    filterReqLines (l :: ls) =
      if keepLine (pyStrip l) then pyStrip l :: filterReqLines ls
      else filterReqLines ls := by
  simp [filterReqLines, List.filter_cons]

/-- Claim C1 counterexample: on the spec's own scenario — manifest
`["requests>=2,<3"]`, empty installed index — the code reports the
bare printed requirement `requests<3,>=2` (`missing.append(str(req))`,
line 520), not the claimed `requests>=2,<3 (not installed)`: no
`(not installed)` annotation exists anywhere in `check_dependencies`. -/
theorem c1_counterexample :
    check_dependencies (some [strOf "requests>=2,<3"]) [] =
      ⟨false, [strOf "requests<3,>=2"], []⟩ ∧
    strOf "requests<3,>=2" ≠ strOf "requests>=2,<3 (not installed)" := by
  decide

/-- Claim C1 (amended): for every manifest whose (stripped, non-comment)
lines all parse, `check_dependencies` returns true iff every specifier
names a package present in the index whose installed version satisfies
the constraint; and for a manifest with exactly one unmet specifier the
missing list contains exactly that entry — the printed requirement
itself (with no annotation) when the package is absent, and the message
carrying both the required constraint and the installed version when
the package is installed at a violating version. -/
theorem c1_satisfaction_and_missing (lines : List Str) (idx : PkgIndex)
    (hp : ∀ l ∈ filterReqLines lines, (parseRequirement l).isSome) :
    ((check_dependencies (some lines) idx).ok = true ↔
      ∀ l ∈ filterReqLines lines, ∀ r, parseRequirement l = some r → ReqSatisfied idx r)
    ∧
    (∀ pre x post r, filterReqLines lines = pre ++ x :: post →
      parseRequirement x = some r → ¬ ReqSatisfied idx r →
      (∀ y ∈ pre ++ post, ∀ s, parseRequirement y = some s → ReqSatisfied idx s) →
      (check_dependencies (some lines) idx).missing = [missingEntryFor idx r]) := by
  constructor
  · rw [check_ok_eq, List.isEmpty_iff, List.filterMap_eq_nil_iff]
    constructor
    · intro h l hl r hr
      have hn := h l hl
      rw [unmetOf, hr, Option.some_bind] at hn
      exact (reqUnmetEntry_eq_none_iff idx r).mp hn
    · intro h l hl
      obtain ⟨r, hr⟩ := Option.isSome_iff_exists.mp (hp l hl)
      rw [unmetOf, hr, Option.some_bind]
      exact (reqUnmetEntry_eq_none_iff idx r).mpr (h l hl r hr)
  · intro pre x post r hsplit hx hunsat hmet
    have hmem : ∀ y ∈ pre ++ post, y ∈ filterReqLines lines := by
      intro y hy
      rw [hsplit]
      rcases List.mem_append.mp hy with h1 | h2
      · exact List.mem_append_left _ h1
      · exact List.mem_append_right _ (List.mem_cons_of_mem _ h2)
    have hnone : ∀ y ∈ pre ++ post, unmetOf idx y = none := by
      intro y hy
      obtain ⟨s, hs⟩ := Option.isSome_iff_exists.mp (hp y (hmem y hy))
      rw [unmetOf, hs, Option.some_bind]
      exact (reqUnmetEntry_eq_none_iff idx s).mpr (hmet y hy s hs)
    have hpre : pre.filterMap (unmetOf idx) = [] :=
      List.filterMap_eq_nil_iff.mpr fun y hy => hnone y (List.mem_append_left _ hy)
    have hpost : post.filterMap (unmetOf idx) = [] :=
      List.filterMap_eq_nil_iff.mpr fun y hy => hnone y (List.mem_append_right _ hy)
    have hux : unmetOf idx x = some (missingEntryFor idx r) := by
      rw [unmetOf, hx, Option.some_bind]
      cases hu : reqUnmetEntry idx r with
      | none => exact absurd ((reqUnmetEntry_eq_none_iff idx r).mp hu) hunsat
      | some m => rw [reqUnmetEntry_some_eq idx r m hu]
    rw [check_missing_eq, hsplit, List.filterMap_append, List.filterMap_cons, hux,
      hpre, hpost]
    rfl

/-- Claim C1 witness: taking the amended theorem at the spec's post-install
scenario — manifest `["requests>=2,<3"]`, index holding
`requests==2.31.0` — the satisfaction check returns true. -/
theorem c1_witness :
    (check_dependencies (some [strOf "requests>=2,<3"])
        (buildIndex [⟨strOf "requests", [2, 31, 0]⟩])).ok = true :=
  ((c1_satisfaction_and_missing [strOf "requests>=2,<3"]
      (buildIndex [⟨strOf "requests", [2, 31, 0]⟩]) (by decide)).1).mpr (by
    intro l hl r hr
    rw [show filterReqLines [strOf "requests>=2,<3"] = [strOf "requests>=2,<3"] from by
      decide] at hl
    rw [List.mem_singleton.mp hl] at hr
    rw [show parseRequirement (strOf "requests>=2,<3") =
      some ⟨strOf "requests", [(SpecOp.ge, [2]), (SpecOp.lt, [3])]⟩ from by decide] at hr
    rw [← Option.some_inj.mp hr]
    decide)

/-- Claim C5 (code bug): `_on_install_finished` does clear the cache
(line 601), but the rebuilt snapshot enumerates the app interpreter's
`distributions()` (line 609) while the install wrote into the venv
interpreter's environment (line 298), so the re-evaluation does not
reflect the packages the install made available.  First conjunct: the
post-install cached check equals a check against the pre-install app
environment, for every install outcome `newPkgs`.  The concrete
conjuncts: on the spec's own scenario (empty app environment, manifest
`["requests>=2,<3"]`, install delivering `requests 2.31.0` into the
venv), the re-check still fails even though the venv's own index would
satisfy the manifest. -/
theorem c5_stale_environment (cache : Option PkgIndex) (w : PkgWorld)
    (newPkgs : List PkgDist) (lines : List Str) :
    (check_dependencies_cached (some lines) (on_install_finished cache true).1
        (pipInstallVenv w newPkgs).appDists).1 =
      check_dependencies (some lines) (buildIndex w.appDists) ∧
    (check_dependencies_cached (some [strOf "requests>=2,<3"])
        (on_install_finished (some []) true).1
        (pipInstallVenv ⟨[], []⟩ [⟨strOf "requests", [2, 31, 0]⟩]).appDists).1.ok = false ∧
    (check_dependencies (some [strOf "requests>=2,<3"])
        (buildIndex (pipInstallVenv ⟨[], []⟩
          [⟨strOf "requests", [2, 31, 0]⟩]).venvDists)).ok = true := by
  refine ⟨rfl, by decide, by decide⟩

theorem reqUnmetEntry_isNone_congr (idx : PkgIndex) (r r' : Req)
    (hn : lowerStr r.name = lowerStr r'.name) (hs : r.specs = r'.specs) :
    (reqUnmetEntry idx r).isNone = (reqUnmetEntry idx r').isNone := by
  unfold reqUnmetEntry
  rw [hn, hs]
  cases idxLookup idx (lowerStr r'.name) with
  | none => rfl
  | some v =>
    by_cases hc : (!r'.specs.isEmpty && !specSetContains r'.specs v) = true
    · simp [hc]
    · simp [hc]

theorem unmetOf_isNone_congr (idx : PkgIndex) (a b : Str)
    (h : ReqParseCaseEq (parseRequirement a) (parseRequirement b)) :
    (unmetOf idx a).isNone = (unmetOf idx b).isNone := by
  unfold unmetOf
  cases hpa : parseRequirement a with
  | none =>
    cases hpb : parseRequirement b with
    | none => rfl
    | some r' => rw [hpa, hpb] at h; simp [ReqParseCaseEq] at h
  | some r =>
    cases hpb : parseRequirement b with
    | none => rw [hpa, hpb] at h; simp [ReqParseCaseEq] at h
    | some r' =>
      rw [hpa, hpb] at h
      rw [Option.some_bind, Option.some_bind]
      exact reqUnmetEntry_isNone_congr idx r r' h.1 h.2

theorem checkOk_caseEq_aux (idx : PkgIndex) :
    ∀ as bs : List Str, as.length = bs.length →
    (∀ p ∈ as.zip bs, lineCaseEq p.1 p.2) →
    ((filterReqLines as).filterMap (unmetOf idx)).isEmpty =
      ((filterReqLines bs).filterMap (unmetOf idx)).isEmpty := by
  intro as
  induction as with
  | nil =>
    intro bs hlen _
    cases bs with
    | nil => rfl
    | cons b bs => cases hlen
  | cons a as ih =>
    intro bs hlen hrel
    cases bs with
    | nil => cases hlen
    | cons b bs =>
      have hab : lineCaseEq a b := hrel (a, b) (by simp)
      have hrest : ∀ p ∈ as.zip bs, lineCaseEq p.1 p.2 :=
        fun p hp => hrel p (by simp [hp])
      have hlen' : as.length = bs.length := by simpa using hlen
      have hrec := ih bs hlen' hrest
      rw [filterReqLines_cons, filterReqLines_cons, ← hab.1]
      by_cases hk : keepLine (pyStrip a) = true
      · rw [if_pos hk, if_pos hk, List.filterMap_cons, List.filterMap_cons]
        have hiso := unmetOf_isNone_congr idx (pyStrip a) (pyStrip b) hab.2
        cases hua : unmetOf idx (pyStrip a) with
        | none =>
          have hub : unmetOf idx (pyStrip b) = none := by
            rw [hua] at hiso
            exact Option.eq_none_iff_forall_not_mem.mpr fun x hx => by
              rw [Option.isNone_iff_eq_none.mpr rfl] at hiso
              rw [Option.mem_def] at hx
              rw [hx] at hiso
              cases hiso
          rw [hub]
          exact hrec
        | some m =>
          have hub : ∃ m', unmetOf idx (pyStrip b) = some m' := by
            rw [hua] at hiso
            cases hb : unmetOf idx (pyStrip b) with
            | none => rw [hb] at hiso; cases hiso
            | some m' => exact ⟨m', rfl⟩
          obtain ⟨m', hub⟩ := hub
          rw [hub]
          rfl
      · rw [if_neg hk, if_neg hk]
        exact hrec

/-- Claim C9: the result of the dependency check is invariant under changing
the letter case of package names, both in the manifest lines and in the
installed-distribution metadata, because `check_dependencies` lowers
the requirement name (line 517) and `get_installed_packages` lowers
every distribution name (line 608) before comparison. -/
theorem c9_case_insensitive (linesA linesB : List Str) (distsA distsB : List PkgDist)
    (hdl : distsA.length = distsB.length)
    (hd : ∀ p ∈ distsA.zip distsB, distCaseEq p.1 p.2)
    (hml : linesA.length = linesB.length)
    (hm : ∀ p ∈ linesA.zip linesB, lineCaseEq p.1 p.2) :
    (check_dependencies (some linesA) (buildIndex distsA)).ok =
      (check_dependencies (some linesB) (buildIndex distsB)).ok := by
  have hidx : buildIndex distsA = buildIndex distsB := by
    suffices haux : ∀ (as bs : List PkgDist) (acc : PkgIndex), as.length = bs.length →
        (∀ p ∈ as.zip bs, distCaseEq p.1 p.2) →
        as.foldl (fun idx d => idxInsert idx (lowerStr d.name) d.version) acc =
          bs.foldl (fun idx d => idxInsert idx (lowerStr d.name) d.version) acc by
      exact haux distsA distsB [] hdl hd
    intro as
    induction as with
    | nil =>
      intro bs acc hlen _
      cases bs with
      | nil => rfl
      | cons b bs => cases hlen
    | cons a as ih =>
      intro bs acc hlen hrel
      cases bs with
      | nil => cases hlen
      | cons b bs =>
        have hab : distCaseEq a b := hrel (a, b) (by simp)
        simp only [List.foldl_cons, hab.1, hab.2]
        exact ih bs _ (by simpa using hlen) (fun p hp => hrel p (by simp [hp]))
  rw [hidx, check_ok_eq, check_ok_eq]
  exact checkOk_caseEq_aux (buildIndex distsB) linesA linesB hml hm

/-- Claim C9 witness: the check result for `Requests>=2` against installed
`Requests 2.31.0` equals the result for the all-lower-case variants. -/
theorem c9_witness :
    (check_dependencies (some [strOf "Requests>=2"])
        (buildIndex [⟨strOf "Requests", [2, 31, 0]⟩])).ok =
      (check_dependencies (some [strOf "requests>=2"])
        (buildIndex [⟨strOf "requests", [2, 31, 0]⟩])).ok :=
  c9_case_insensitive [strOf "Requests>=2"] [strOf "requests>=2"]
    [⟨strOf "Requests", [2, 31, 0]⟩] [⟨strOf "requests", [2, 31, 0]⟩]
    (by decide) (by decide) (by decide) (by decide)

/-- Claim C10: a manifest line the requirement parser rejects is skipped
after exactly one diagnostic log event (the `except` branch at lines
523-525): the returned boolean and missing list are the same as for the
manifest without that line, so malformed lines are never counted as
unmet. -/
theorem c10_malformed_line_skipped (idx : PkgIndex) (pre post : List Str) (bad : Str)
    (hk : keepLine (pyStrip bad) = true)
    (hbad : parseRequirement (pyStrip bad) = none) :
    (check_dependencies (some (pre ++ bad :: post)) idx).ok =
      (check_dependencies (some (pre ++ post)) idx).ok ∧
    (check_dependencies (some (pre ++ bad :: post)) idx).missing =
      (check_dependencies (some (pre ++ post)) idx).missing ∧
    (check_dependencies (some (pre ++ bad :: post)) idx).parseErrors =
      (check_dependencies (some pre) idx).parseErrors ++
        parseErrMsg (pyStrip bad) :: (check_dependencies (some post) idx).parseErrors := by
  have hsplit : filterReqLines (pre ++ bad :: post) =
      filterReqLines pre ++ pyStrip bad :: filterReqLines post := by
    rw [filterReqLines_append, filterReqLines_cons, if_pos hk]
  have hsplit0 : filterReqLines (pre ++ post) =
      filterReqLines pre ++ filterReqLines post := filterReqLines_append pre post
  have hu : unmetOf idx (pyStrip bad) = none := by
    rw [unmetOf, hbad]; rfl
  have he : errOf (pyStrip bad) = some (parseErrMsg (pyStrip bad)) := by
    simp [errOf, hbad]
  refine ⟨?_, ?_, ?_⟩
  · rw [check_ok_eq, check_ok_eq, hsplit, hsplit0, List.filterMap_append,
      List.filterMap_append, List.filterMap_cons, hu]
  · rw [check_missing_eq, check_missing_eq, hsplit, hsplit0, List.filterMap_append,
      List.filterMap_append, List.filterMap_cons, hu]
  · rw [check_errors_eq, check_errors_eq, check_errors_eq, hsplit,
      List.filterMap_append, List.filterMap_cons, he]

/-- Claim C10 witness: the manifest consisting only of the malformed line
`???` is reported satisfied — the malformed line is skipped, never
counted as unmet. -/
theorem c10_witness :
    keepLine (pyStrip (strOf "???")) = true ∧
    parseRequirement (pyStrip (strOf "???")) = none ∧
    (check_dependencies (some [strOf "???"]) []).ok = true := by
  refine ⟨by decide, by decide, ?_⟩
  have h := c10_malformed_line_skipped [] [] [] (strOf "???") (by decide) (by decide)
  rw [show ([] : List Str) ++ strOf "???" :: [] = [strOf "???"] from rfl] at h
  rw [h.1]
  decide

theorem venvStep_preserves_active (st : VenvState) (e : VenvEvent)
    (h : VenvActive st) : VenvActive (venvStep st e) := by
  cases e with
  | tick => exact h
  | completeSuccess =>
    unfold venvStep
    by_cases hr : st.threadRunning = true
    · rw [if_pos hr]; exact Or.inl rfl
    · rw [if_neg hr]; exact h

theorem venvSteps_preserve_active (evts : List VenvEvent) :
    ∀ st : VenvState, VenvActive st → VenvActive (evts.foldl venvStep st) := by
  induction evts with
  | nil => exact fun st h => h
  | cons e evts ih =>
    intro st h
    exact ih (venvStep st e) (venvStep_preserves_active st e h)

theorem active_no_start (st : VenvState) (p : String) (h : VenvActive st) :
    (create_or_get_venv st p).startedCreation = false := by
  unfold create_or_get_venv
  rcases h with h | h
  · rw [if_pos h]
  · by_cases he : st.venvExists = true
    · rw [if_pos he]
    · rw [if_neg he, if_pos h]

/-- Claim C3: two `create_or_get_venv` calls with no external deletion (and
no creation failure, which the spec treats as requiring an explicit
retry) start at most one background creation; when the interpreter
already exists the call returns its path synchronously with unchanged
state and no thread start, and when a creation is already in flight the
call returns `None` without starting a second thread. -/
theorem c3_provision_idempotent (st : VenvState) (p : String) (evts : List VenvEvent) :
    ((if (create_or_get_venv st p).startedCreation then 1 else 0) +
      (if (create_or_get_venv
            (evts.foldl venvStep (create_or_get_venv st p).state) p).startedCreation
        then 1 else 0) ≤ 1) ∧
    (st.venvExists = true → create_or_get_venv st p = ⟨some p, st, false⟩) ∧
    (st.venvExists = false → st.threadRunning = true →
      create_or_get_venv st p = ⟨none, st, false⟩) := by
  refine ⟨?_, ?_, ?_⟩
  · have hact : VenvActive (create_or_get_venv st p).state := by
      unfold create_or_get_venv
      by_cases he : st.venvExists = true
      · rw [if_pos he]; exact Or.inl he
      · rw [if_neg he]
        by_cases hr : st.threadRunning = true
        · rw [if_pos hr]; exact Or.inr hr
        · rw [if_neg hr]; exact Or.inr rfl
    have h2 := active_no_start _ p (venvSteps_preserve_active evts _ hact)
    rw [h2]
    by_cases hs : (create_or_get_venv st p).startedCreation = true
    · rw [hs]; simp
    · rw [Bool.eq_false_iff.mpr hs]; simp
  · intro he
    unfold create_or_get_venv
    rw [if_pos he]
  · intro he hr
    unfold create_or_get_venv
    rw [if_neg (by rw [he]; exact Bool.false_ne_true), if_pos hr]

/-- Claim C3 witness: from the absent-and-idle state, the first call starts
the creation and the second (after the creation completes) does not;
and the two synchronous fast paths at concrete states. -/
theorem c3_witness :
    ((if (create_or_get_venv ⟨false, false⟩ "py").startedCreation then 1 else 0) +
      (if (create_or_get_venv
            ([VenvEvent.completeSuccess].foldl venvStep
              (create_or_get_venv ⟨false, false⟩ "py").state) "py").startedCreation
        then 1 else 0) ≤ 1) ∧
    ((true : Bool) = true → create_or_get_venv ⟨true, false⟩ "py" =
      ⟨some "py", ⟨true, false⟩, false⟩) ∧
    ((false : Bool) = false → (true : Bool) = true →
      create_or_get_venv ⟨false, true⟩ "py" = ⟨none, ⟨false, true⟩, false⟩) :=
  ⟨(c3_provision_idempotent ⟨false, false⟩ "py" [VenvEvent.completeSuccess]).1,
   fun _ => (c3_provision_idempotent ⟨true, false⟩ "py" []).2.1 rfl,
   fun _ _ => (c3_provision_idempotent ⟨false, true⟩ "py" []).2.2 rfl rfl⟩

/-- Claim C2 (code bug): the spec (and the handler's own comments at
lines 1547-1553) require the controller to re-run the prepare-and-run
flow after a successful install for the still-selected script, but the
success branch is unreachable: `dependencies_installed_signal` carries
the script DIRECTORY `get_script_dir name` (emitted at lines 580/603),
and line 1549 compares it to the bare `current_script_name`.  For every
script name, the dispatch on the actually-delivered payload while that
very script is selected is the stale-completion log, never the rerun —
the completion is always discarded. -/
theorem c2_rerun_unreachable (name : String) :
    on_dependencies_installed (some name) (get_script_dir name) true =
      InstallFollowup.staleDebugLog (get_script_dir name) ∧
    on_dependencies_installed (some name) (get_script_dir name) true ≠
      InstallFollowup.rerunPrepare name := by
  have hne : (some name : Option String) ≠ some (get_script_dir name) := by
    intro h
    have h2 : name.length = (get_script_dir name).length :=
      congrArg String.length (Option.some_inj.mp h)
    rw [get_script_dir, String.length_append,
      show ("scripts/" : String).length = 8 from rfl] at h2
    omega
  have hmain : on_dependencies_installed (some name) (get_script_dir name) true =
      InstallFollowup.staleDebugLog (get_script_dir name) := by
    unfold on_dependencies_installed
    rw [if_pos rfl, if_neg hne]
  refine ⟨hmain, ?_⟩
  rw [hmain]
  intro h
  exact InstallFollowup.noConfusion h

/-- Claim C4: in every state with a live worker, a start request for any
script is rejected with exactly the busy notice, launches nothing, and
leaves the executor state — including the running session — unchanged. -/
theorem c4_busy_rejection (st : ExecutorState) (sess : RunningSession) (name : String)
    (h : st.running = some sess) :
    run_script st name = ⟨st, [busyMsg], false⟩ ∧
    (run_script st name).state.running = some sess := by
  unfold run_script
  rw [h]
  exact ⟨rfl, h⟩

/-- Claim C4 witness: a start request for `beta` while `alpha` is running is
rejected and `alpha` stays the running session. -/
theorem c4_witness :
    run_script ⟨some ⟨"alpha"⟩⟩ "beta" = ⟨⟨some ⟨"alpha"⟩⟩, [busyMsg], false⟩ ∧
    (run_script ⟨some ⟨"alpha"⟩⟩ "beta").state.running = some ⟨"alpha"⟩ :=
  c4_busy_rejection ⟨some ⟨"alpha"⟩⟩ ⟨"alpha"⟩ "beta" rfl

theorem finished_not_mem_emitOuts (reads : List Str) :
    WEvent.finished ∉ emitOuts reads := by
  intro h
  rw [emitOuts, List.mem_filterMap] at h
  obtain ⟨s, _, hs⟩ := h
  by_cases he : s.isEmpty = true <;> simp [he] at hs

theorem finished_not_mem_stderrEvents (stderr : Str) :
    WEvent.finished ∉ stderrEvents stderr := by
  unfold stderrEvents
  split
  · simp
  · simp

theorem finished_not_mem_body (script_path : String) (fileExists : Bool)
    (reads : List Str) (stopAt : Option Nat) (stderr : Str) (exc : Option (Nat × Str)) :
    WEvent.finished ∉ workerBody script_path fileExists reads stopAt stderr exc := by
  intro h
  unfold workerBody at h
  split at h
  · simp at h
  · split at h
    · rcases List.mem_append.mp h with h1 | h2
      · exact finished_not_mem_emitOuts _ h1
      · simp at h2
    · split at h
      · split at h
        · exact finished_not_mem_emitOuts _ h
        · rcases List.mem_append.mp h with h1 | h2
          · exact finished_not_mem_emitOuts _ h1
          · exact finished_not_mem_stderrEvents _ h2
      · rcases List.mem_append.mp h with h1 | h2
        · exact finished_not_mem_emitOuts _ h1
        · exact finished_not_mem_stderrEvents _ h2

/-- Claim C6: in every session — child exits on its own, script file missing,
internal exception, or stop (graceful or forced) — `WorkerThread.run`
emits exactly one finished notification, and it is the last event, so
it follows every output event of the session. -/
theorem c6_exactly_one_finished (script_path : String) (fileExists : Bool)
    (reads : List Str) (stopAt : Option Nat) (stderr : Str)
    (exc : Option (Nat × Str)) :
    (workerRun script_path fileExists reads stopAt stderr exc).count WEvent.finished = 1 ∧
    (workerRun script_path fileExists reads stopAt stderr exc).getLast? =
      some WEvent.finished := by
  constructor
  · rw [workerRun, List.count_append,
      List.count_eq_zero.mpr (finished_not_mem_body script_path fileExists reads
        stopAt stderr exc)]
    rfl
  · rw [workerRun]
    exact List.getLast?_concat _

theorem installLoop_failed_bounded (rc : Int) (stopAt : Option Nat) :
    ∀ (lines : List Str) (progress i : Nat),
      (installLoop progress i lines stopAt rc).2 = false →
      ∀ e ∈ (installLoop progress i lines stopAt rc).1, e ≤ 95 := by
  intro lines
  induction lines with
  | nil =>
    intro progress i hf e he
    by_cases hrc : rc = 0
    · rw [installLoop, if_pos hrc] at hf; cases hf
    · rw [installLoop, if_neg hrc] at he; simp at he
  | cons l ls ih =>
    intro progress i hf e he
    by_cases hstop : stopNow stopAt i = true
    · rw [installLoop, if_pos hstop] at he; simp at he
    · rw [installLoop, if_neg hstop] at hf he
      rcases List.mem_cons.mp he with he | he
      · rw [he]; exact min_le_right _ _
      · exact ih _ _ hf e he

theorem installLoop_success_split (rc : Int) (stopAt : Option Nat) :
    ∀ (lines : List Str) (progress i : Nat),
      (installLoop progress i lines stopAt rc).2 = true →
      ∃ evs0, (installLoop progress i lines stopAt rc).1 = evs0 ++ [100] ∧
        ∀ e ∈ evs0, e ≤ 95 := by
  intro lines
  induction lines with
  | nil =>
    intro progress i ht
    by_cases hrc : rc = 0
    · exact ⟨[], by rw [installLoop, if_pos hrc]; rfl, by intro e he; cases he⟩
    · rw [installLoop, if_neg hrc] at ht; cases ht
  | cons l ls ih =>
    intro progress i ht
    by_cases hstop : stopNow stopAt i = true
    · rw [installLoop, if_pos hstop] at ht; cases ht
    · rw [installLoop, if_neg hstop] at ht ⊢
      obtain ⟨evs0, hsp, hb⟩ := ih _ _ ht
      refine ⟨min (progress + 3) 95 :: evs0, ?_, ?_⟩
      · dsimp only
        rw [hsp, List.cons_append]
      · intro e he
        rcases List.mem_cons.mp he with he | he
        · rw [he]; exact min_le_right _ _
        · exact hb e he

theorem installLoop_chain (rc : Int) (stopAt : Option Nat) :
    ∀ (lines : List Str) (progress i : Nat), progress ≤ 95 →
      List.Chain' (· ≤ ·) (progress :: (installLoop progress i lines stopAt rc).1) := by
  intro lines
  induction lines with
  | nil =>
    intro progress i hp
    by_cases hrc : rc = 0
    · rw [installLoop, if_pos hrc]
      exact List.chain'_cons.mpr ⟨by omega, List.chain'_singleton _⟩
    · rw [installLoop, if_neg hrc]
      exact List.chain'_singleton _
  | cons l ls ih =>
    intro progress i hp
    by_cases hstop : stopNow stopAt i = true
    · rw [installLoop, if_pos hstop]
      exact List.chain'_singleton _
    · rw [installLoop, if_neg hstop]
      dsimp only
      refine List.chain'_cons.mpr ⟨?_, ih _ _ (min_le_right _ _)⟩
      exact le_min (by omega) hp

/-- Claim C7: the progress percentages of one install run are monotonically
non-decreasing; on a successful completion the final event is exactly
100, occurring exactly once, with everything before it strictly below
100; a failed or user-interrupted install never emits 100. -/
theorem c7_progress_monotone (lines : List Str) (stopAt : Option Nat) (rc : Int) :
    List.Chain' (· ≤ ·) (installRun lines stopAt rc).1 ∧
    ((installRun lines stopAt rc).2 = true →
      (installRun lines stopAt rc).1.getLast? = some 100 ∧
      (∀ e ∈ (installRun lines stopAt rc).1.dropLast, e < 100) ∧
      (installRun lines stopAt rc).1.count 100 = 1) ∧
    ((installRun lines stopAt rc).2 = false → 100 ∉ (installRun lines stopAt rc).1) := by
  refine ⟨?_, ?_, ?_⟩
  · exact (installLoop_chain rc stopAt lines 0 0 (by omega)).tail
  · intro ht
    obtain ⟨evs0, hsp, hb⟩ := installLoop_success_split rc stopAt lines 0 0 ht
    rw [installRun, hsp]
    refine ⟨List.getLast?_concat _, ?_, ?_⟩
    · rw [List.dropLast_concat]
      intro e he
      exact lt_of_le_of_lt (hb e he) (by omega)
    · rw [List.count_append]
      rw [List.count_eq_zero.mpr fun hmem => by
        have := hb 100 hmem
        omega]
      rfl
  · intro hf hmem
    have := installLoop_failed_bounded rc stopAt lines 0 0 hf 100 hmem
    omega

/-- Claim C7 witness: a two-line successful install emits `[3, 6, 100]`, a
run interrupted after two lines emits `[3, 6]` and never 100. -/
theorem c7_witness :
    installRun [strOf "a", strOf "b"] none 0 = ([3, 6, 100], true) ∧
    List.Chain' (· ≤ ·) (installRun [strOf "a", strOf "b"] none 0).1 ∧
    (installRun [strOf "a", strOf "b", strOf "c"] (some 2) 0).2 = false ∧
    100 ∉ (installRun [strOf "a", strOf "b", strOf "c"] (some 2) 0).1 :=
  ⟨by decide,
   (c7_progress_monotone [strOf "a", strOf "b"] none 0).1,
   by decide,
   (c7_progress_monotone [strOf "a", strOf "b", strOf "c"] (some 2) 0).2.2 (by decide)⟩

theorem mem_insertNew (acc : List Str) (n x : Str) :
    x ∈ insertNew acc n ↔ x ∈ acc ∨ x = n := by
  unfold insertNew
  by_cases hc : n ∈ acc
  · rw [if_pos hc]
    constructor
    · exact Or.inl
    · rintro (h | h)
      · exact h
      · exact h ▸ hc
  · rw [if_neg hc]
    simp [List.mem_append]

theorem mem_foldl_insertNew : ∀ (names acc : List Str) (x : Str),
    x ∈ names.foldl insertNew acc ↔ x ∈ acc ∨ x ∈ names := by
  intro names
  induction names with
  | nil => intro acc x; simp
  | cons n ns ih =>
    intro acc x
    rw [List.foldl_cons, ih, mem_insertNew, List.mem_cons]
    tauto

theorem nodup_insertNew (acc : List Str) (n : Str) (h : acc.Nodup) :
    (insertNew acc n).Nodup := by
  unfold insertNew
  by_cases hc : n ∈ acc
  · rw [if_pos hc]; exact h
  · rw [if_neg hc]
    refine List.Nodup.append h (List.nodup_singleton n) ?_
    intro a ha hb
    rw [List.mem_singleton.mp hb] at ha
    exact hc ha

theorem nodup_foldl_insertNew : ∀ (names acc : List Str), acc.Nodup →
    (names.foldl insertNew acc).Nodup := by
  intro names
  induction names with
  | nil => exact fun acc h => h
  | cons n ns ih =>
    intro acc h
    rw [List.foldl_cons]
    exact ih _ (nodup_insertNew acc n h)

theorem mem_collectImports : ∀ (lines acc : List Str) (x : Str),
    x ∈ collectImports lines acc ↔
      x ∈ acc ∨ ∃ line ∈ lines, x ∈ lineImports stdlibList line := by
  intro lines
  induction lines with
  | nil => intro acc x; simp [collectImports]
  | cons l ls ih =>
    intro acc x
    rw [show collectImports (l :: ls) acc =
      collectImports ls ((lineImports stdlibList l).foldl insertNew acc) from rfl]
    rw [ih, mem_foldl_insertNew]
    constructor
    · rintro ((h | h) | h)
      · exact Or.inl h
      · exact Or.inr ⟨l, List.mem_cons_self _ _, h⟩
      · obtain ⟨line, hl, hx⟩ := h
        exact Or.inr ⟨line, List.mem_cons_of_mem _ hl, hx⟩
    · rintro (h | ⟨line, hl, hx⟩)
      · exact Or.inl (Or.inl h)
      · rcases List.mem_cons.mp hl with h | h
        · exact Or.inl (Or.inr (h ▸ hx))
        · exact Or.inr ⟨line, h, hx⟩

theorem nodup_collectImports (lines : List Str) : (collectImports lines []).Nodup := by
  suffices haux : ∀ (ls acc : List Str), acc.Nodup → (collectImports ls acc).Nodup from
    haux lines [] List.nodup_nil
  intro ls
  induction ls with
  | nil => exact fun acc h => h
  | cons l ls ih =>
    intro acc h
    exact ih _ (nodup_foldl_insertNew _ acc h)

theorem collectImports_eq_nil_iff (lines : List Str) :
    collectImports lines [] = [] ↔
      ∀ line ∈ lines, lineImports stdlibList line = [] := by
  constructor
  · intro h line hl
    cases hres : lineImports stdlibList line with
    | nil => rfl
    | cons y ys =>
      have hy : y ∈ collectImports lines [] :=
        (mem_collectImports lines [] y).mpr
          (Or.inr ⟨line, hl, hres ▸ List.mem_cons_self _ _⟩)
      rw [h] at hy
      cases hy
  · intro h
    cases hres : collectImports lines [] with
    | nil => rfl
    | cons y ys =>
      have hy : y ∈ collectImports lines [] := hres ▸ List.mem_cons_self _ _
      rcases (mem_collectImports lines [] y).mp hy with h0 | ⟨line, hl, hx⟩
      · cases h0
      · rw [h line hl] at hx
        cases hx

theorem lineImports_not_stdlib (stdlib : List Str) (line m : Str)
    (h : m ∈ lineImports stdlib line) : m ∉ stdlib := by
  unfold lineImports at h
  split at h
  · have h2 := (List.mem_filter.mp h).2
    rw [Bool.and_eq_true] at h2
    exact of_decide_eq_true h2.2
  · split at h
    · split at h
      · split at h
        next hguard =>
          rw [List.mem_singleton.mp h]
          exact hguard
        next => cases h
      · cases h
    · cases h

theorem sortStrs_sorted (l : List Str) : List.Sorted StrLe (sortStrs l) :=
  List.sorted_insertionSort StrLe l

theorem sortStrs_perm (l : List Str) : List.Perm (sortStrs l) l :=
  List.perm_insertionSort StrLe l

/-- Claim C8 counterexample: on a source whose only import statement is
indented inside a function body — so that no raw line is a top-level
`import`/`from ` statement form — `analyze_imports` nevertheless
returns `["requests"]`: line 474 strips every line before matching, so
indented statements are not ignored as the claim states. -/
theorem c8_counterexample :
    analyze_imports (strOf "def f():\n    import requests") =
      some [strOf "requests"] ∧
    ((splitOnChar '\n' (strOf "def f():\n    import requests")).filter
      (fun l => (strOf "import ").isPrefixOf l || (strOf "from ").isPrefixOf l)) = [] := by
  constructor
  · decide
  · decide

/-- Claim C8 (amended): `analyze_imports` considers the `import X[.Y][, Z]`
and `from X[.Y] import ...` statement forms of every line after
stripping its surrounding whitespace — so indented statements are
matched too — ignoring blank lines and comment lines; each matched
statement is reduced to its root module names, names on the fixed
standard-library allowlist are discarded, and the remaining names are
returned sorted and without duplicates, or `none` when none remain. -/
theorem c8_analyze_imports_characterization (content : Str) :
    (analyze_imports content = none ↔
      ∀ line ∈ strippedCodeLines content, lineImports stdlibList line = []) ∧
    (∀ l, analyze_imports content = some l →
      List.Sorted StrLe l ∧ l.Nodup ∧ l ≠ [] ∧
      (∀ m, (m ∈ l ↔ ∃ line ∈ strippedCodeLines content,
        m ∈ lineImports stdlibList line)) ∧
      (∀ m ∈ l, m ∉ stdlibList)) := by
  constructor
  · unfold analyze_imports
    split
    next hempty =>
      rw [← collectImports_eq_nil_iff, ← List.isEmpty_iff]
      simp [hempty]
    next hempty =>
      constructor
      · intro h; cases h
      · intro h
        rw [← collectImports_eq_nil_iff, ← List.isEmpty_iff] at h
        exact absurd h hempty
  · intro l hl
    unfold analyze_imports at hl
    split at hl
    · cases hl
    next hempty =>
      have hl' : l = sortStrs (collectImports (strippedCodeLines content) []) :=
        (Option.some_inj.mp hl).symm
      subst hl'
      refine ⟨sortStrs_sorted _, ?_, ?_, ?_, ?_⟩
      · exact ((sortStrs_perm _).nodup_iff).mpr (nodup_collectImports _)
      · intro hnil
        have hlen := (sortStrs_perm (collectImports (strippedCodeLines content) [])).length_eq
        rw [hnil] at hlen
        have hcnil : collectImports (strippedCodeLines content) [] = [] :=
          List.eq_nil_of_length_eq_zero hlen.symm
        rw [hcnil] at hempty
        exact hempty rfl
      · intro m
        rw [(sortStrs_perm _).mem_iff, mem_collectImports]
        simp
      · intro m hm
        rcases (mem_collectImports (strippedCodeLines content) [] m).mp
          ((sortStrs_perm _).mem_iff.mp hm) with h0 | ⟨line, _, hx⟩
        · cases h0
        · exact lineImports_not_stdlib stdlibList line m hx

/-- Claim C8 witness: a three-line source exercising both statement forms,
the comma form, and the allowlist discard (`os`): the analyzer returns
the external names sorted, and each is outside the allowlist. -/
theorem c8_witness :
    analyze_imports
        (strOf "import os\nimport requests, numpy\nfrom flask import Flask") =
      some [strOf "flask", strOf "numpy", strOf "requests"] ∧
    (∀ m ∈ [strOf "flask", strOf "numpy", strOf "requests"], m ∉ stdlibList) := by
  refine ⟨by decide, ?_⟩
  have h := (c8_analyze_imports_characterization
      (strOf "import os\nimport requests, numpy\nfrom flask import Flask")).2
      [strOf "flask", strOf "numpy", strOf "requests"] (by decide)
  exact h.2.2.2.2

